import Mathlib

/-!
Verification of the babyseg configuration and checkpoint subsystem.

This file gives a shallow embedding of `babyseg/config.py` and
`babyseg/state.py` (merge of layered JSON configuration documents,
provenance caching, option parsing, object-builder argument merging,
and the checkpoint save/load/list/path/epoch operations), together with
theorems about the embedded operations.
-/

set_option autoImplicit false

namespace Babyseg

/-- JSON-like configuration values, as produced by `json.load` in
`config.py`.  Python dictionaries are modelled as insertion-ordered
association lists; float literals are carried as their token string
(no float arithmetic is performed anywhere in the modelled code). -/
inductive JValue where
  | null
  | bool (b : Bool)
  | int (n : Int)
  | float (s : String)
  | str (s : String)
  | arr (xs : List JValue)
  | obj (fields : List (String × JValue))

/-- A Python `dict` with string keys: an insertion-ordered association list. -/
abbrev Obj := List (String × JValue)

/-- `d.get(k)` / `d[k]` lookup: first binding of the key. -/
def lookupKey : Obj → String → Option JValue
  | [], _ => none
  | (k, v) :: rest, key => if k = key then some v else lookupKey rest key

/-- `d[k] = v`: update the first binding in place, else append at the end
(Python dict insertion-order semantics). -/
def setKey : Obj → String → JValue → Obj
  | [], key, v => [(key, v)]
  | (k, w) :: rest, key, v =>
      if k = key then (key, v) :: rest else (k, w) :: setKey rest key v

/-- `d.pop(k, default)`, the removal part: drop the first binding of the key. -/
def eraseKey : Obj → String → Obj
  | [], _ => []
  | (k, v) :: rest, key => if k = key then rest else (k, v) :: eraseKey rest key

/-- Whether all digit characters of a float token are zero, ignoring sign,
decimal point and exponent; `0.0e5` is falsy in Python, `1.0` is truthy. -/
def floatTokenIsZero (s : String) : Bool :=
  (s.data.takeWhile (fun c => c ≠ 'e' ∧ c ≠ 'E')).all
    (fun c => ¬ c.isDigit ∨ c = '0')

/-- Python truthiness of a JSON value: `None`, `False`, zero, the empty
string, the empty list and the empty dict are falsy. -/
def truthy : JValue → Bool
  | .null => false
  | .bool b => b
  | .int n => n ≠ 0
  | .float s => ¬ floatTokenIsZero s
  | .str s => s ≠ ""
  | .arr xs => ¬ xs.isEmpty
  | .obj fields => ¬ fields.isEmpty

/-- Python exception kinds raised by the modelled code.  The spec's error
taxonomy maps onto these: `FormatError` is `ValueError`, `RangeError` is the
`ValueError` of a negative epoch, `NotFoundError` is `FileNotFoundError`,
and `LookupError` covers `KeyError`. -/
inductive PyError where
  | valueError
  | keyError
  | typeError
  | fileNotFoundError
  | attributeError
  | zeroDivisionError
deriving Repr, DecidableEq

/-- Whether a value is a Python dict (`isinstance(x, dict)`). -/
def isDict : JValue → Bool
  | .obj _ => true
  | _ => false

/-- `isinstance(old.get(k), dict)`: a missing key gives `None`, not a dict. -/
def isDictOpt : Option JValue → Bool
  | some (.obj _) => true
  | _ => false

namespace Config

/-- Size bound used for termination of the recursive merge. -/
theorem sizeOf_eraseKey_le (l : Obj) (key : String) :
    sizeOf (eraseKey l key) ≤ sizeOf l := by
  induction l with
  | nil => simp [eraseKey]
  | cons kv rest ih =>
    obtain ⟨k, v⟩ := kv
    simp only [eraseKey]
    split <;> simp_all <;> omega

/-- Looking up a key yields a structurally smaller value. -/
theorem sizeOf_lookupKey_lt (l : Obj) (key : String) (v : JValue)
    (h : lookupKey l key = some v) : sizeOf v < sizeOf l := by
  induction l with
  | nil => simp [lookupKey] at h
  | cons kv rest ih =>
    obtain ⟨k, w⟩ := kv
    simp only [lookupKey] at h
    split at h
    · cases h <;> simp <;> omega
    · have := ih h
      simp
      omega

mutual

/-- The inner `merge` of `config.load`, folding the entries of the new
document into the old one.  For each key: if either side is not a dict the
new value replaces the old; else if the new dict holds a truthy `clear`,
the new dict (with `clear` popped) replaces the old wholesale; else the
dicts are merged recursively (`clear` is popped even when falsy). -/
def merge (old new : Obj) : Obj :=
  match new with
  | [] => old
  | (k, v) :: rest => merge (mergeKey old k v) rest
termination_by sizeOf new
decreasing_by
  all_goals simp_wf <;> omega

/-- One step of `merge`: process a single key-value pair of the new document. -/
def mergeKey (old : Obj) (k : String) (v : JValue) : Obj :=
  match lookupKey old k, v with
  | some (.obj o), .obj n =>
      match lookupKey n "clear" with
      | some c =>
          let n' := eraseKey n "clear"
          if truthy c then setKey old k (.obj n')
          else setKey old k (.obj (merge o n'))
      | none => setKey old k (.obj (merge o n))
  | _, _ => setKey old k v
termination_by sizeOf v
decreasing_by
  all_goals simp_wf
  all_goals try omega
  all_goals (have h1 := sizeOf_eraseKey_le n "clear") <;> omega

end

/-- A configuration file as consumed by `config.load`: `path` is the literal
argument string (`str(f)`), `stem` is the stem of the qualified path, and
`content` is the parsed JSON object (reading a non-object raises before the
merge, so contents are dicts by construction here). -/
structure ConfFile where
  path : String
  stem : String
  content : Obj

/-- The merge fold of `config.load`: defaults first, then each file's
document merged in turn. -/
def mergeFiles (defaults : Obj) (files : List ConfFile) : Obj :=
  files.foldl (fun out f => merge out f.content) defaults

/-- The provenance-tracking tail of `config.load`: when any files were read,
`out.setdefault('cache', dict())`, then `cache.setdefault('name', names[0])`,
then unconditional writes of `cache['names']` and `cache['files']`.
Calling `setdefault` on a non-dict `cache` entry raises `AttributeError`. -/
def cacheUpdate (out : Obj) (names : List String) (fileStrs : List String) :
    Except PyError Obj :=
  match names with
  | [] => .ok out
  | n0 :: _ =>
    let out1 := match lookupKey out "cache" with
      | some _ => out
      | none => setKey out "cache" (.obj [])
    match lookupKey out1 "cache" with
    | some (.obj c) =>
        let c1 := match lookupKey c "name" with
          | some _ => c
          | none => setKey c "name" (.str n0)
        let c2 := setKey c1 "names" (.arr (names.map .str))
        let c3 := setKey c2 "files" (.arr (fileStrs.map .str))
        .ok (setKey out1 "cache" (.obj c3))
    | _ => .error .attributeError

/-- `config.load`: fold the files into the defaults, then record provenance. -/
def load (defaults : Obj) (files : List ConfFile) : Except PyError Obj :=
  cacheUpdate (mergeFiles defaults files)
    (files.map ConfFile.stem) (files.map ConfFile.path)

/-- The `cache` entry of a merged document is absent or itself a dict (the
condition under which `config.load`'s provenance block does not raise). -/
def cacheEntryOk (out : Obj) : Prop :=
  lookupKey out "cache" = none ∨ ∃ c, lookupKey out "cache" = some (JValue.obj c)

/-- The `cache` dict of a merged document before the provenance writes,
taking the empty dict when the entry is absent. -/
def priorCache (out : Obj) : Obj :=
  match lookupKey out "cache" with
  | some (.obj c) => c
  | _ => []

/-- The observable outcome of `config.build` on a dict spec: the spec dict
as it stands after the call (Python aliasing makes `ar.extend(args)` and
`kw.update(kwargs)` mutate the spec's own `args` list and `kwargs` dict in
place when those keys are present), plus the merged positional and keyword
arguments forwarded to the resolved callable. -/
structure BuildResult where
  spec : Obj
  args : List JValue
  kwargs : Obj

/-- Split a character list at every occurrence of a separator, modelling
Python `str.split(sep)` for a nonempty separator of one character. -/
def splitChar (sep : Char) : List Char → List (List Char)
  | [] => [[]]
  | c :: rest =>
      let r := splitChar sep rest
      if c = sep then [] :: r
      else
        match r with
        | g :: gs => (c :: g) :: gs
        | [] => [[c]]

/-- `'.'.join(...)` on character lists. -/
def intercalateDots : List (List Char) → List Char
  | [] => []
  | [p] => p
  | p :: ps => p ++ '.' :: intercalateDots ps

/-- `ar = f.get('args', default_list())` aliasing: present list values are
shared with the spec; `extend` on a non-list raises `AttributeError`. -/
def getArgsEntry : Option JValue → Except PyError (List JValue × Bool)
  | none => .ok ([], false)
  | some (.arr a) => .ok (a, true)
  | some _ => .error .attributeError

/-- `kw = f.get('kwargs', dict())` aliasing, as for `getArgsEntry`. -/
def getKwargsEntry : Option JValue → Except PyError (Obj × Bool)
  | none => .ok ([], false)
  | some (.obj o) => .ok (o, true)
  | some _ => .error .attributeError

/-- `kw.update(kwargs)`: fold the overriding pairs into the base dict. -/
def dictUpdate (base upd : Obj) : Obj :=
  upd.foldl (fun d kv => setKey d kv.1 kv.2) base

/-- `config.build` on a dict spec, up to the dynamic import (the import and
callable checks act on the runtime module environment and are outside this
model; what is modelled is the argument handling around them).  The name is
split at dots and a missing module portion raises `ValueError`; then the
spec's `args`/`kwargs` are fetched by reference, extended/updated with the
extra arguments, and the (possibly mutated) spec is part of the result. -/
def build (f : Obj) (args : List JValue) (kwargs : Obj) :
    Except PyError BuildResult := do
  match lookupKey f "name" with
  | none => .error .keyError
  | some (.str qname) =>
      let parts := splitChar '.' qname.data
      let module := intercalateDots parts.dropLast
      if module.isEmpty then .error .valueError
      else do
        let (ar0, argsShared) ← getArgsEntry (lookupKey f "args")
        let (kw0, kwargsShared) ← getKwargsEntry (lookupKey f "kwargs")
        let ar := ar0 ++ args
        let kw := dictUpdate kw0 kwargs
        let f1 := if argsShared then setKey f "args" (.arr ar) else f
        let f2 := if kwargsShared then setKey f1 "kwargs" (.obj kw) else f1
        .ok ⟨f2, ar, kw⟩
  | some _ => .error .attributeError

/-- Base-10 value of a digit-character list, big-endian (the core of
Python `int()` on a digit string). -/
def digitsToNat (cs : List Char) : Nat :=
  cs.foldl (fun a c => a * 10 + (c.toNat - 48)) 0

/-- Model of Python `int(x)` on option values: an optional sign followed by
one or more decimal digits.  (The builtin additionally strips whitespace
and digit-group underscores; such inputs are outside this model.) -/
def pyInt (s : String) : Option Int :=
  match s.data with
  | [] => none
  | '-' :: rest =>
      if ¬ rest.isEmpty ∧ rest.all Char.isDigit
      then some (-(digitsToNat rest : Int)) else none
  | '+' :: rest =>
      if ¬ rest.isEmpty ∧ rest.all Char.isDigit
      then some (digitsToNat rest : Int) else none
  | cs =>
      if ¬ cs.isEmpty ∧ cs.all Char.isDigit
      then some (digitsToNat cs : Int) else none

/-- Leading sign of a float literal. -/
def stripSign : List Char → List Char
  | '+' :: r => r
  | '-' :: r => r
  | r => r

/-- Exponent part of a float literal: empty, or `e`/`E`, optional sign and
one or more digits. -/
def floatExpOk : List Char → Bool
  | [] => true
  | 'e' :: r => ¬ (stripSign r).isEmpty ∧ (stripSign r).all Char.isDigit
  | 'E' :: r => ¬ (stripSign r).isEmpty ∧ (stripSign r).all Char.isDigit
  | _ => false

/-- Model of Python `float(x)` succeeding on option values: optional sign,
a mantissa of digits with an optional decimal point (digits on at least one
side), and an optional exponent.  (`inf`/`nan` spellings, whitespace and
underscores are outside this model.) -/
def pyFloatOk (s : String) : Bool :=
  let cs := stripSign s.data
  let d1 := cs.takeWhile Char.isDigit
  let r1 := cs.dropWhile Char.isDigit
  match r1 with
  | '.' :: r2 =>
      let d2 := r2.takeWhile Char.isDigit
      let r3 := r2.dropWhile Char.isDigit
      (¬ d1.isEmpty ∨ ¬ d2.isEmpty) ∧ floatExpOk r3
  | _ => ¬ d1.isEmpty ∧ floatExpOk r1

/-- The `cast` helper of `config.argparse`: `'true'`/`'false'` literals,
else `int`, else `float` (the accepted token is kept as its literal text),
else the string itself (`str(x)` never fails). -/
def cast (x : String) : JValue :=
  if x = "true" then .bool true
  else if x = "false" then .bool false
  else
    match pyInt x with
    | some n => .int n
    | none => if pyFloatOk x then .float x else .str x

/-- The descend-and-assign loop of `config.argparse`: `sub = sub[k]` for
each intermediate key, then `sub[last] = v`.  Subscripting a dict with a
missing key raises `KeyError`; subscripting a non-dict with a string key
raises `TypeError`. -/
def descendSet : Obj → List String → String → JValue → Except PyError Obj
  | o, [], last, v => .ok (setKey o last v)
  | o, k :: rest, last, v =>
      match lookupKey o k with
      | none => .error .keyError
      | some (.obj sub) =>
          (descendSet sub rest last v).map (fun s => setKey o k (.obj s))
      | some _ => .error .typeError

/-- `config.argparse` on a single option string: split at `=` (exactly one
required, else `ValueError`), split the key path at `:`, coerce the value
with `cast`, and descend-and-assign. -/
def argparse1 (config : Obj) (option : String) : Except PyError Obj :=
  match splitChar '=' option.data with
  | [keyPath, value] =>
      let parts := (splitChar ':' keyPath).map String.mk
      match parts.getLast? with
      | some last => descendSet config parts.dropLast last (cast (String.mk value))
      | none => .error .valueError
  | _ => .error .valueError

/-- `config.argparse` over all option strings in order. -/
def argparse (config : Obj) (options : List String) : Except PyError Obj :=
  options.foldlM argparse1 config

end Config

namespace State

/-- `state.save`, reduced to its observable decision: a negative epoch (the
model of `not isinstance(epoch, int) or epoch < 0`, with `epoch` an integer
by typing here) raises `ValueError`; otherwise `epoch % period != 0 and not
force` returns without writing (`ok false`), else a checkpoint is written to
`state.path(conf, epoch)` (`ok true`).  `Int.emod` agrees with Python `%`
whenever the modulus is positive, and `0 % 0` raises in Python. -/
def save (epoch period : Int) (force : Bool) : Except PyError Bool :=
  if epoch < 0 then .error .valueError
  else if period = 0 then .error .zeroDivisionError
  else if epoch % period ≠ 0 ∧ ¬ force then .ok false
  else .ok true

/-- Decimal digit character for a value below ten. -/
def digitChar (n : Nat) : Char := Char.ofNat (48 + n)

/-- Base-10 character representation of a natural number, the model of
Python `str(epoch)` inside `str.format`. -/
def natDigits (n : Nat) : List Char :=
  if h : n < 10 then [digitChar n]
  else natDigits (n / 10) ++ [digitChar (n % 10)]
termination_by n
decreasing_by
  simp_wf
  omega

/-- Modelled from the spec: the checkpoint filename marker in front of the
epoch digits.  The concrete `checkpoint.path` template and
`checkpoint.regex` live in `config/defaults.json`, which is not part of the
sources here; the spec requires a template with `name` and `epoch`
placeholders and a regex with a named group `epoch` that recovers the epoch
from the filename. -/
def marker : List Char := ['_', 'e', 'p', 'o', 'c', 'h', '_']

/-- Modelled from the spec: `state.path(conf, epoch)` as
`folder / template.format(name=name, epoch=epoch)` with the modelled
template `name, marker, epoch digits, ".pt"`. -/
def path (folder name : String) (epoch : Nat) : String :=
  folder ++ "/" ++ name ++ String.mk marker ++ String.mk (natDigits epoch) ++ ".pt"

/-- Modelled from the spec: `re.search` for the pattern `marker` followed by
a named group of one or more digits — the first position where the whole
pattern matches, with the digit run taken greedily. -/
def searchEpoch : List Char → Option (List Char)
  | [] => none
  | c :: rest =>
      if marker.isPrefixOf (c :: rest)
          ∧ ¬ (((c :: rest).drop 7).takeWhile Char.isDigit).isEmpty
      then some (((c :: rest).drop 7).takeWhile Char.isDigit)
      else searchEpoch rest

/-- Modelled from the spec: `state.epoch(conf, path)` =
`int(re.search(pattern, str(path))['epoch'])`; `none` models the
`TypeError` of subscripting a failed match. -/
def epoch (p : String) : Option Nat :=
  (searchEpoch p.data).map Config.digitsToNat

/-- The epoch filter argument of `state.list`: `None`, a single epoch, an
inclusive `(min, max)` pair, or a `(min, max, step)` triple, exactly the
shapes the Python normalization handles. -/
inductive EpochArg where
  | noFilter
  | one (e : Int)
  | pair (a b : Option Int)
  | triple (a b s : Option Int)

/-- The normalization block of `state.list`: `None` and single epochs are
wrapped, short tuples are padded, yielding `(start, stop, step)`. -/
def normalizeArg : EpochArg → Option Int × Option Int × Option Int
  | .noFilter => (none, none, none)
  | .one e => (some e, some e, none)
  | .pair a b => (a, b, none)
  | .triple a b s => (a, b, s)

/-- The filtering loop of `state.list` over the extracted epochs, collecting
indices: skip while below `start`, break above `stop`, and — once an index
has been retained — skip any epoch less than `step` above the epoch of the
*immediately preceding listed file* (`epochs[i - 1]`, not the last retained
epoch).  `prev` carries `epochs[i - 1]`; it is `none` only at `i = 0`,
where `indices` is still empty and the step test short-circuits. -/
def filterGo (start stop step : Option Int) :
    List Int → Nat → Option Int → List Nat → List Nat
  | [], _, _, indices => indices
  | e :: rest, i, prev, indices =>
      if (match start with | some s => decide (e < s) | none => false)
      then filterGo start stop step rest (i + 1) (some e) indices
      else if (match stop with | some t => decide (t < e) | none => false)
      then indices
      else if (match step, prev with
               | some s, some p => !indices.isEmpty && decide (e - p < s)
               | some _, none => false
               | none, _ => false)
      then filterGo start stop step rest (i + 1) (some e) indices
      else filterGo start stop step rest (i + 1) (some e) (indices ++ [i])

/-- `state.list`: the glob result is modelled as the filename-sorted list of
checkpoint files paired with their extracted epochs (`state.epoch` applied
to each file).  No files at all, or an empty filter result, raises
`FileNotFoundError`. -/
def list (files : List (String × Int)) (arg : EpochArg) :
    Except PyError (List String) :=
  if files.isEmpty then .error .fileNotFoundError
  else
    let (start, stop, step) := normalizeArg arg
    let epochs := files.map Prod.snd
    let indices := filterGo start stop step epochs 0 none []
    if indices.isEmpty then .error .fileNotFoundError
    else .ok (indices.filterMap (fun i => (files.get? i).map Prod.fst))

/-- The `resume` configuration value: Python distinguishes `bool` before
`int` (bools are ints in Python, but the `bool` test comes first), and any
other value reaches the final `ValueError`. -/
inductive Resume where
  | bool (b : Bool)
  | int (n : Int)
  | other
deriving Repr, DecidableEq

/-- What `state.load` did: the checkpoint (or init) path it loaded state
from, if any, and the epoch it returns. -/
structure LoadResult where
  source : Option String
  epoch : Int
deriving Repr, DecidableEq

/-- Python truthiness of the optional `training.init` entry. -/
def initTruthy : Option String → Bool
  | none => false
  | some s => s != ""

/-- `state.load`: `pathOf` models `state.path(conf, ·)` for the integer
resume case; `files` is the checkpoint listing as in `list` (a raised
`FileNotFoundError` is caught and yields the empty list, and the unfiltered
`list` call returns every file).  New experiments and `resume=False` return
epoch 0, loading `init` only if truthy; `resume=True` loads the last listed
checkpoint and returns its extracted epoch; integer `resume` constructs the
path for that epoch; anything else raises `ValueError`. -/
def load (pathOf : Int → String) (files : List (String × Int))
    (init : Option String) (resume : Resume) : Except PyError LoadResult :=
  let noResume := match resume with | .bool b => !b | _ => false
  if files.isEmpty || noResume then
    if initTruthy init then .ok ⟨some ((init).getD ""), 0⟩
    else .ok ⟨none, 0⟩
  else
    match resume with
    | .bool _ =>
        match files.getLast? with
        | some (p, e) => .ok ⟨some p, e⟩
        | none => .error .fileNotFoundError
    | .int n => .ok ⟨some (pathOf n), n⟩
    | .other => .error .valueError

end State

/-! ### Dictionary lemmas -/

theorem lookup_setKey_self (l : Obj) (k : String) (v : JValue) :
    lookupKey (setKey l k v) k = some v := by
  induction l with
  | nil => simp [setKey, lookupKey]
  | cons kv rest ih =>
    obtain ⟨k1, v1⟩ := kv
    simp only [setKey]
    split
    · simp [lookupKey]
    · simp only [lookupKey]
      split
      · simp_all
      · exact ih

theorem lookup_setKey_ne (l : Obj) (k k2 : String) (v : JValue) (h : k ≠ k2) :
    lookupKey (setKey l k v) k2 = lookupKey l k2 := by
  induction l with
  | nil => simp [setKey, lookupKey, h]
  | cons kv rest ih =>
    obtain ⟨k1, v1⟩ := kv
    simp only [setKey]
    split
    · simp_all [lookupKey]
    · simp only [lookupKey]
      split
      · rfl
      · exact ih

theorem lookup_eq_none_of_not_mem (l : Obj) (k : String)
    (h : k ∉ l.map Prod.fst) : lookupKey l k = none := by
  induction l with
  | nil => rfl
  | cons kv rest ih =>
    obtain ⟨k1, v1⟩ := kv
    simp only [List.map, List.mem_cons] at h
    push_neg at h
    simp only [lookupKey]
    split
    · next heq => exact absurd heq.symm h.1
    · exact ih h.2

theorem not_mem_of_lookup_eq_none (l : Obj) (k : String)
    (h : lookupKey l k = none) : k ∉ l.map Prod.fst := by
  induction l with
  | nil => simp
  | cons kv rest ih =>
    obtain ⟨k1, v1⟩ := kv
    simp only [lookupKey] at h
    split at h
    · cases h
    · simp only [List.map, List.mem_cons]
      push_neg
      exact ⟨by simp_all [eq_comm], ih h⟩

theorem lookup_eraseKey_self (l : Obj) (k : String)
    (hnd : (l.map Prod.fst).Nodup) : lookupKey (eraseKey l k) k = none := by
  induction l with
  | nil => rfl
  | cons kv rest ih =>
    obtain ⟨k1, v1⟩ := kv
    simp only [List.map, List.nodup_cons] at hnd
    simp only [eraseKey]
    split
    · subst k1
      exact lookup_eq_none_of_not_mem rest k hnd.1
    · simp only [lookupKey]
      split
      · simp_all
      · exact ih hnd.2

/-! ### Merge lemmas -/

theorem merge_nil (old : Obj) : Config.merge old [] = old := by
  rw [Config.merge]

theorem merge_cons (old : Obj) (k : String) (v : JValue) (rest : Obj) :
    Config.merge old ((k, v) :: rest)
      = Config.merge (Config.mergeKey old k v) rest := by
  rw [Config.merge]

/-- Processing one key leaves every other key's binding unchanged. -/
theorem mergeKey_lookup_ne (old : Obj) (k k2 : String) (v : JValue)
    (h : k ≠ k2) :
    lookupKey (Config.mergeKey old k v) k2 = lookupKey old k2 := by
  rw [Config.mergeKey.eq_def]
  split
  all_goals try split
  all_goals try split
  all_goals exact lookup_setKey_ne _ _ _ _ h

/-- Override: when either side is not a dict, the new value lands at the key. -/
theorem mergeKey_lookup_default (old : Obj) (k : String) (v : JValue)
    (h : isDictOpt (lookupKey old k) = false ∨ isDict v = false) :
    lookupKey (Config.mergeKey old k v) k = some v := by
  rw [Config.mergeKey.eq_def]
  split
  · next o n heq =>
      rcases h with h | h
      · rw [heq] at h
        simp [isDictOpt] at h
      · simp [isDict] at h
  · exact lookup_setKey_self _ _ _

/-- Truthy `clear`: the new dict, with `clear` popped, lands wholesale. -/
theorem mergeKey_lookup_clear (old : Obj) (k : String) (o n : Obj)
    (c : JValue) (hold : lookupKey old k = some (JValue.obj o))
    (hc : lookupKey n "clear" = some c) (ht : truthy c = true) :
    lookupKey (Config.mergeKey old k (JValue.obj n)) k
      = some (JValue.obj (eraseKey n "clear")) := by
  rw [Config.mergeKey.eq_def, hold]
  simp only [hc, ht, if_true]
  exact lookup_setKey_self _ _ _

/-- No `clear`: two dicts merge recursively. -/
theorem mergeKey_lookup_rec (old : Obj) (k : String) (o n : Obj)
    (hold : lookupKey old k = some (JValue.obj o))
    (hc : lookupKey n "clear" = none) :
    lookupKey (Config.mergeKey old k (JValue.obj n)) k
      = some (JValue.obj (Config.merge o n)) := by
  rw [Config.mergeKey.eq_def, hold]
  simp only [hc]
  exact lookup_setKey_self _ _ _

/-- What `mergeKey` leaves at its key depends on the old dict only through
the old binding of that key. -/
theorem mergeKey_lookup_congr (old1 old2 : Obj) (k : String) (v : JValue)
    (h : lookupKey old1 k = lookupKey old2 k) :
    lookupKey (Config.mergeKey old1 k v) k
      = lookupKey (Config.mergeKey old2 k v) k := by
  rw [Config.mergeKey.eq_def, Config.mergeKey.eq_def, h]
  rcases hv : lookupKey old2 k with _ | w
  · cases v <;> simp [lookup_setKey_self]
  · cases w <;> cases v <;> try simp [lookup_setKey_self]
    split <;> (try split) <;> simp_all [lookup_setKey_self]

/-- Keys not mentioned by the new document keep their old binding. -/
theorem merge_lookup_not_mem (new : Obj) (old : Obj) (k2 : String)
    (h : k2 ∉ new.map Prod.fst) :
    lookupKey (Config.merge old new) k2 = lookupKey old k2 := by
  induction new generalizing old with
  | nil => rw [merge_nil]
  | cons kv rest ih =>
    obtain ⟨k, v⟩ := kv
    simp only [List.map, List.mem_cons] at h
    push_neg at h
    rw [merge_cons, ih _ h.2, mergeKey_lookup_ne _ _ _ _ (fun he => h.1 he.symm)]

/-- With unique keys, the binding of a merged key is decided by the single
entry carrying it. -/
theorem merge_lookup_of_mem (new : Obj) (old : Obj) (k : String) (v : JValue)
    (hmem : (k, v) ∈ new) (hnd : (new.map Prod.fst).Nodup) :
    lookupKey (Config.merge old new) k
      = lookupKey (Config.mergeKey old k v) k := by
  induction new generalizing old with
  | nil => cases hmem
  | cons kv rest ih =>
    obtain ⟨k1, v1⟩ := kv
    simp only [List.map, List.nodup_cons] at hnd
    rw [merge_cons]
    rcases List.mem_cons.mp hmem with heq | hmem2
    · injection heq with h1 h2
      subst h1
      subst h2
      exact merge_lookup_not_mem rest _ k hnd.1
    · have hk1 : k1 ≠ k := fun he => hnd.1 (by
        rw [he]
        exact List.mem_map_of_mem Prod.fst hmem2)
      rw [ih _ hmem2 hnd.2]
      exact mergeKey_lookup_congr _ _ _ _ (mergeKey_lookup_ne _ _ _ _ hk1)

/-! ### C4: `clear` semantics of the configuration merge -/

/-- C4 counterexample: merging a mapping that contains a truthy `clear`
entry over an *absent* prior key keeps the `clear` key verbatim — the
merged result does contain `clear` at that position and is not the
clear-stripped mapping, contradicting the claim as stated. -/
theorem merge_clear_counterexample :
    lookupKey (Config.merge [] [("a", JValue.obj [("clear", JValue.bool true)])]) "a"
      = some (JValue.obj [("clear", JValue.bool true)]) ∧
    ¬ (lookupKey (Config.merge [] [("a", JValue.obj [("clear", JValue.bool true)])]) "a"
        = some (JValue.obj [])) := by
  have h : lookupKey
      (Config.merge [] [("a", JValue.obj [("clear", JValue.bool true)])]) "a"
      = some (JValue.obj [("clear", JValue.bool true)]) := by
    rw [merge_cons, merge_nil]
    exact mergeKey_lookup_default _ _ _ (Or.inl rfl)
  refine ⟨h, ?_⟩
  rw [h]
  simp

/-- C4 (amended): in a merge of a later configuration document into an
earlier one, when the earlier value at a key is itself a mapping and the
incoming value is a mapping containing a truthy `clear` entry, the result
at that key is the incoming mapping with the `clear` key removed, replacing
the prior subtree wholesale, and contains no `clear` key at that position
(keys of parsed JSON objects are distinct). -/
theorem merge_clear_replaces (old new : Obj) (k : String) (o n : Obj)
    (c : JValue) (hmem : (k, JValue.obj n) ∈ new)
    (hnewnd : (new.map Prod.fst).Nodup)
    (hnd : (n.map Prod.fst).Nodup)
    (hold : lookupKey old k = some (JValue.obj o))
    (hc : lookupKey n "clear" = some c)
    (ht : truthy c = true) :
    lookupKey (Config.merge old new) k
      = some (JValue.obj (eraseKey n "clear")) ∧
    lookupKey (eraseKey n "clear") "clear" = none := by
  refine ⟨?_, lookup_eraseKey_self _ _ hnd⟩
  rw [merge_lookup_of_mem _ _ _ _ hmem hnewnd]
  exact mergeKey_lookup_clear _ _ _ _ _ hold hc ht

/-- C4 witness: a concrete clear-merge over a mapping-valued prior key. -/
theorem merge_clear_replaces_witness :
    lookupKey (Config.merge [("a", JValue.obj [("x", JValue.int 1)])]
        [("a", JValue.obj [("clear", JValue.bool true), ("y", JValue.int 2)])]) "a"
      = some (JValue.obj
          (eraseKey [("clear", JValue.bool true), ("y", JValue.int 2)] "clear")) ∧
    lookupKey (eraseKey [("clear", JValue.bool true), ("y", JValue.int 2)] "clear")
      "clear" = none :=
  merge_clear_replaces _ _ "a" [("x", JValue.int 1)] _ _ (by simp) (by simp)
    (by simp) rfl rfl rfl

/-! ### C5: override and recursive merge -/

/-- C5: in a merge of a later document into an earlier one, a key whose old
or new value is not a mapping receives the later document's value exactly;
and when both values are mappings and the incoming one carries no `clear`
entry, the merge is recursive, with keys absent from the incoming mapping
keeping their prior value. -/
theorem merge_override_and_recursion :
    (∀ (old new : Obj) (k : String) (v : JValue),
        (k, v) ∈ new → (new.map Prod.fst).Nodup →
        (isDictOpt (lookupKey old k) = false ∨ isDict v = false) →
        lookupKey (Config.merge old new) k = some v) ∧
    (∀ (old new : Obj) (k : String) (o n : Obj) (k2 : String),
        (k, JValue.obj n) ∈ new → (new.map Prod.fst).Nodup →
        lookupKey old k = some (JValue.obj o) →
        lookupKey n "clear" = none →
        lookupKey n k2 = none →
        lookupKey (Config.merge old new) k
          = some (JValue.obj (Config.merge o n)) ∧
        lookupKey (Config.merge o n) k2 = lookupKey o k2) := by
  constructor
  · intro old new k v hmem hnd h
    rw [merge_lookup_of_mem _ _ _ _ hmem hnd]
    exact mergeKey_lookup_default _ _ _ h
  · intro old new k o n k2 hmem hnd hold hc hk2
    refine ⟨?_, merge_lookup_not_mem _ _ _ (not_mem_of_lookup_eq_none _ _ hk2)⟩
    rw [merge_lookup_of_mem _ _ _ _ hmem hnd]
    exact mergeKey_lookup_rec _ _ _ _ hold hc

/-- C5 witness: a non-mapping override and a recursive merge retaining an
absent key's prior value, on concrete documents. -/
theorem merge_override_and_recursion_witness :
    lookupKey (Config.merge [("a", JValue.int 1)] [("a", JValue.int 2)]) "a"
      = some (JValue.int 2) ∧
    (lookupKey (Config.merge [("a", JValue.obj [("x", JValue.int 1)])]
         [("a", JValue.obj [("y", JValue.int 2)])]) "a"
       = some (JValue.obj (Config.merge [("x", JValue.int 1)] [("y", JValue.int 2)])) ∧
     lookupKey (Config.merge [("x", JValue.int 1)] [("y", JValue.int 2)]) "x"
       = lookupKey [("x", JValue.int 1)] "x") :=
  ⟨merge_override_and_recursion.1 _ _ "a" _ (by simp) (by simp) (Or.inr rfl),
   merge_override_and_recursion.2 _ _ "a" _ _ "x" (by simp) (by simp) rfl rfl rfl⟩

/-! ### C2: checkpoint listing and epoch filters -/

/-- C2 counterexample: with checkpoints at epochs 0, 5, 10, 15 and the
minimum-step filter `(0, 15, 10)`, `state.list` does not return the
checkpoints at epochs 0 and 10: the step test compares each epoch against
the epoch of the immediately preceding listed file (`epochs[i - 1]`), so
epoch 10 is dropped because 10 - 5 < 10. -/
theorem list_min_step_counterexample :
    ¬ (State.list [("e00", 0), ("e05", 5), ("e10", 10), ("e15", 15)]
        (.triple (some 0) (some 15) (some 10)) = .ok ["e00", "e10"]) := by
  have h : State.list [("e00", 0), ("e05", 5), ("e10", 10), ("e15", 15)]
      (.triple (some 0) (some 15) (some 10)) = .ok ["e00"] := rfl
  rw [h]
  simp

/-- C2 (amended): `state.list` with no files raises `FileNotFoundError`
(the spec's `NotFoundError`); with files at epochs 0, 5, 10, 15 the filter
`(5, 12)` returns exactly the checkpoints at epochs 5 and 10; and the
minimum-step filter `(0, 15, 10)`, whose step test compares each epoch with
the epoch of the immediately preceding listed file rather than the last
retained one, returns exactly the checkpoint at epoch 0. -/
theorem list_filters (arg : State.EpochArg) :
    State.list [] arg = .error .fileNotFoundError ∧
    State.list [("e00", 0), ("e05", 5), ("e10", 10), ("e15", 15)]
      (.pair (some 5) (some 12)) = .ok ["e05", "e10"] ∧
    State.list [("e00", 0), ("e05", 5), ("e10", 10), ("e15", 15)]
      (.triple (some 0) (some 15) (some 10)) = .ok ["e00"] :=
  ⟨rfl, rfl, rfl⟩

/-! ### C6: checkpoint save cadence -/

/-- C6: `state.save` raises `ValueError` (the spec's `RangeError`) for a
negative epoch; otherwise it writes exactly when the epoch is a multiple of
the save period or saving is forced — in particular, with period 5 it skips
epoch 7 without force, writes at epoch 10, and writes at epoch 7 with
force. -/
theorem save_period_law (epoch period : Int) (force : Bool)
    (hp : 0 < period) :
    (epoch < 0 → State.save epoch period force = .error .valueError) ∧
    (0 ≤ epoch →
      State.save epoch period force
        = .ok (decide (epoch % period = 0) || force)) ∧
    State.save 7 5 false = .ok false ∧
    State.save 10 5 false = .ok true ∧
    State.save 7 5 true = .ok true := by
  refine ⟨fun h => by simp [State.save, h], fun h => ?_, rfl, rfl, rfl⟩
  have hz : ¬ period = 0 := by omega
  have hneg : ¬ epoch < 0 := by omega
  by_cases hm : epoch % period = 0 <;> cases force <;>
    simp [State.save, hneg, hz, hm]

/-- C6 witness: the theorem applied at epoch 7, period 5, without force. -/
theorem save_period_law_witness :
    ((7 : Int) < 0 → State.save 7 5 false = .error .valueError) ∧
    ((0 : Int) ≤ 7 →
      State.save 7 5 false = .ok (decide ((7 : Int) % 5 = 0) || false)) ∧
    State.save 7 5 false = .ok false ∧
    State.save 10 5 false = .ok true ∧
    State.save 7 5 true = .ok true :=
  save_period_law 7 5 false (by decide)

/-! ### C9: `build` mutates the spec's own `args` and `kwargs` -/

/-- C9: evaluating `config.build` at a dict spec with `args=[1,2]` and an
extra positional argument 3 shows the frame effect: the spec dict after the
call carries `args=[1,2,3]` — `ar = f.get('args', [])` aliases the spec's
own list and `ar.extend(args)` mutates it in place — so the spec does not
equal its value before the call. -/
theorem build_mutates_spec_args :
    Config.build
        [("name", JValue.str "m.f"),
         ("args", JValue.arr [JValue.int 1, JValue.int 2]),
         ("kwargs", JValue.obj [])]
        [JValue.int 3] []
      = .ok ⟨[("name", JValue.str "m.f"),
              ("args", JValue.arr [JValue.int 1, JValue.int 2, JValue.int 3]),
              ("kwargs", JValue.obj [])],
             [JValue.int 1, JValue.int 2, JValue.int 3], []⟩ ∧
    ¬ (lookupKey
        [("name", JValue.str "m.f"),
         ("args", JValue.arr [JValue.int 1, JValue.int 2, JValue.int 3]),
         ("kwargs", JValue.obj [])] "args"
        = lookupKey
        [("name", JValue.str "m.f"),
         ("args", JValue.arr [JValue.int 1, JValue.int 2]),
         ("kwargs", JValue.obj [])] "args") := by
  refine ⟨rfl, ?_⟩
  intro h
  simp [lookupKey] at h

/-! ### C10: fresh experiment ignores the resume type -/

/-- C10: with no checkpoints listed and no init path, `state.load` returns
epoch 0 without loading and without raising, for every `resume` value —
including values that are neither boolean nor integer, since the early
return happens before the type dispatch on `resume`. -/
theorem load_fresh_any_resume (pathOf : Int → String) (resume : State.Resume) :
    State.load pathOf [] none resume = .ok ⟨none, 0⟩ := rfl

/-! ### C7: provenance cache written by `config.load` -/

/-- The provenance block of `config.load`, characterized: with a well-typed
(or absent) `cache` entry and at least one file name, it succeeds, `name`
is only defaulted, and `names`/`files` are overwritten. -/
theorem cacheUpdate_spec (out : Obj) (n0 : String) (ns fs : List String)
    (hok : Config.cacheEntryOk out) :
    ∃ (res cache : Obj),
      Config.cacheUpdate out (n0 :: ns) fs = .ok res ∧
      lookupKey res "cache" = some (JValue.obj cache) ∧
      lookupKey cache "name"
        = some ((lookupKey (Config.priorCache out) "name").getD (JValue.str n0)) ∧
      lookupKey cache "names"
        = some (JValue.arr ((n0 :: ns).map JValue.str)) ∧
      lookupKey cache "files" = some (JValue.arr (fs.map JValue.str)) := by
  rcases hok with h | ⟨c, h⟩
  · have h2 := lookup_setKey_self out "cache" (JValue.obj [])
    simp only [Config.cacheUpdate, h, h2]
    refine ⟨_, _, rfl, lookup_setKey_self _ _ _, ?_, ?_, ?_⟩
    · rw [lookup_setKey_ne _ "files" "name" _ (by decide),
        lookup_setKey_ne _ "names" "name" _ (by decide)]
      simp [Config.priorCache, h, lookup_setKey_self, lookupKey]
    · rw [lookup_setKey_ne _ "files" "names" _ (by decide),
        lookup_setKey_self]
    · rw [lookup_setKey_self]
  · simp only [Config.cacheUpdate, h]
    rcases hn : lookupKey c "name" with _ | w
    · simp only [hn]
      refine ⟨_, _, rfl, lookup_setKey_self _ _ _, ?_, ?_, ?_⟩
      · rw [lookup_setKey_ne _ "files" "name" _ (by decide),
          lookup_setKey_ne _ "names" "name" _ (by decide),
          lookup_setKey_self]
        simp [Config.priorCache, h, hn]
      · rw [lookup_setKey_ne _ "files" "names" _ (by decide),
          lookup_setKey_self]
      · rw [lookup_setKey_self]
    · simp only [hn]
      refine ⟨_, _, rfl, lookup_setKey_self _ _ _, ?_, ?_, ?_⟩
      · rw [lookup_setKey_ne _ "files" "name" _ (by decide),
          lookup_setKey_ne _ "names" "name" _ (by decide), hn]
        simp [Config.priorCache, h, hn]
      · rw [lookup_setKey_ne _ "files" "names" _ (by decide),
          lookup_setKey_self]
      · rw [lookup_setKey_self]

/-- C7: after a `config.load` with at least one file (and a well-typed
merged `cache` entry), the result's `cache.name` is the stem of the first
file unless a `name` was already present in the merged result (which is
kept), while `cache.names` is the ordered list of all file stems and
`cache.files` the literal file path strings, both always (over)written. -/
theorem load_cache_provenance (defaults : Obj) (f0 : Config.ConfFile)
    (rest : List Config.ConfFile)
    (hok : Config.cacheEntryOk (Config.mergeFiles defaults (f0 :: rest))) :
    ∃ (out cache : Obj),
      Config.load defaults (f0 :: rest) = .ok out ∧
      lookupKey out "cache" = some (JValue.obj cache) ∧
      lookupKey cache "name"
        = some ((lookupKey
            (Config.priorCache (Config.mergeFiles defaults (f0 :: rest)))
            "name").getD (JValue.str f0.stem)) ∧
      lookupKey cache "names"
        = some (JValue.arr ((f0 :: rest).map (fun f => JValue.str f.stem))) ∧
      lookupKey cache "files"
        = some (JValue.arr ((f0 :: rest).map (fun f => JValue.str f.path))) := by
  have h := cacheUpdate_spec (Config.mergeFiles defaults (f0 :: rest))
    f0.stem (rest.map Config.ConfFile.stem) ((f0 :: rest).map Config.ConfFile.path) hok
  simpa [Config.load, List.map_map, Function.comp] using h

/-- C7 witness: a concrete load of one file over empty defaults. -/
theorem load_cache_provenance_witness :
    ∃ (out cache : Obj),
      Config.load [] [⟨"conf/exp.json", "exp", []⟩] = .ok out ∧
      lookupKey out "cache" = some (JValue.obj cache) ∧
      lookupKey cache "name"
        = some ((lookupKey
            (Config.priorCache (Config.mergeFiles [] [⟨"conf/exp.json", "exp", []⟩]))
            "name").getD (JValue.str "exp")) ∧
      lookupKey cache "names" = some (JValue.arr [JValue.str "exp"]) ∧
      lookupKey cache "files" = some (JValue.arr [JValue.str "conf/exp.json"]) :=
  load_cache_provenance [] ⟨"conf/exp.json", "exp", []⟩ []
    (Or.inl (by rw [show Config.mergeFiles [] [⟨"conf/exp.json", "exp", []⟩]
        = Config.merge [] [] from rfl, merge_nil]; rfl))

/-! ### C3: path construction and epoch extraction round-trip -/

theorem digitChar_isDigit (n : Nat) (h : n < 10) :
    (State.digitChar n).isDigit = true := by
  interval_cases n <;> decide

theorem digitChar_toNat (n : Nat) (h : n < 10) :
    (State.digitChar n).toNat = 48 + n := by
  interval_cases n <;> decide

theorem natDigits_ne_nil (n : Nat) : State.natDigits n ≠ [] := by
  rw [State.natDigits.eq_def]
  split <;> simp

theorem natDigits_all_digit (n : Nat) :
    ∀ c ∈ State.natDigits n, c.isDigit = true := by
  induction n using Nat.strong_induction_on with
  | _ n ih =>
    rw [State.natDigits.eq_def]
    split
    · next h =>
        intro c hc
        simp only [List.mem_singleton] at hc
        subst hc
        exact digitChar_isDigit n h
    · next h =>
        intro c hc
        rcases List.mem_append.mp hc with hc | hc
        · exact ih (n / 10) (by omega) c hc
        · simp only [List.mem_singleton] at hc
          subst hc
          exact digitChar_isDigit _ (Nat.mod_lt _ (by omega))

theorem digitsToNat_append_one (cs : List Char) (c : Char) :
    Config.digitsToNat (cs ++ [c])
      = 10 * Config.digitsToNat cs + (c.toNat - 48) := by
  simp [Config.digitsToNat, List.foldl_append]
  omega

theorem digitsToNat_natDigits (n : Nat) :
    Config.digitsToNat (State.natDigits n) = n := by
  induction n using Nat.strong_induction_on with
  | _ n ih =>
    rw [State.natDigits.eq_def]
    split
    · next h =>
        have := digitChar_toNat n h
        simp [Config.digitsToNat, this]
    · next h =>
        rw [digitsToNat_append_one, ih (n / 10) (by omega),
          digitChar_toNat _ (Nat.mod_lt _ (by omega))]
        omega

theorem takeWhile_append_not (p : Char → Bool) (xs : List Char) (y : Char)
    (ys : List Char) (h : ∀ c ∈ xs, p c = true) (hy : p y = false) :
    (xs ++ y :: ys).takeWhile p = xs := by
  induction xs with
  | nil => simp [List.takeWhile_cons, hy]
  | cons a t ih =>
    rw [List.cons_append, List.takeWhile_cons, h a (by simp),
      ih (fun c hc => h c (by simp [hc]))]
    simp

/-- C3: extracting the epoch from a constructed checkpoint path recovers
the epoch, for every natural epoch under the fixed experiment name `exp`,
folder `checkpoints`, the modelled path template and the modelled epoch
regex (cf. `State.path` and `State.epoch`, modelled from the spec since
`config/defaults.json` is not among the sources). -/
theorem path_epoch_roundtrip (e : Nat) :
    State.epoch (State.path "checkpoints" "exp" e) = some e := by
  have hall := natDigits_all_digit e
  have hne : (State.natDigits e).isEmpty = false :=
    List.isEmpty_eq_false.mpr (natDigits_ne_nil e)
  have htw : (State.natDigits e ++ '.' :: 'p' :: 't' :: []).takeWhile
      Char.isDigit = State.natDigits e :=
    takeWhile_append_not _ _ _ _ hall (by decide)
  have hdata : (State.path "checkpoints" "exp" e).data
      = 'c' :: 'h' :: 'e' :: 'c' :: 'k' :: 'p' :: 'o' :: 'i' :: 'n' :: 't'
        :: 's' :: '/' :: 'e' :: 'x' :: 'p' :: '_' :: 'e' :: 'p' :: 'o'
        :: 'c' :: 'h' :: '_' :: (State.natDigits e ++ '.' :: 'p' :: 't' :: []) := by
    simp [State.path, String.data_append, State.marker]
  rw [State.epoch, hdata]
  simp only [State.searchEpoch, State.marker, List.isPrefixOf, List.drop,
    htw, hne, Option.map]
  simp [digitsToNat_natDigits]

/-! ### C1: resuming at the latest checkpoint -/

/-- In a list sorted by `≤`, every element is bounded by the last one. -/
theorem sorted_le_getLast? (l : List Int)
    (hs : l.Sorted (fun a b => a ≤ b)) :
    ∀ x ∈ l, ∀ e, l.getLast? = some e → x ≤ e := by
  induction l with
  | nil => simp
  | cons a t ih =>
    intro x hx e he
    cases t with
    | nil =>
      simp at hx he
      omega
    | cons b t2 =>
      rw [List.getLast?_cons_cons] at he
      rcases List.mem_cons.mp hx with rfl | hx2
      · have hmem : e ∈ b :: t2 := by
          obtain ⟨hnn, heq⟩ :=
            List.mem_getLast?_eq_getLast (Option.mem_def.mpr he)
          exact heq ▸ List.getLast_mem hnn
        exact List.rel_of_sorted_cons hs e hmem
      · exact ih hs.of_cons x hx2 e he

/-- C1: when checkpoints exist and `training.resume` is boolean true,
`state.load` loads the last checkpoint of the listing and returns its
epoch, which is the maximum epoch among the listed artifacts — the listing
(filename-sorted, with the spec-modelled naming pattern monotone in the
epoch) being sorted by epoch. -/
theorem load_resume_true_latest (pathOf : Int → String)
    (files : List (String × Int)) (init : Option String)
    (hne : files ≠ [])
    (hs : (files.map Prod.snd).Sorted (fun a b => a ≤ b)) :
    ∃ (p : String) (e : Int),
      State.load pathOf files init (.bool true) = .ok ⟨some p, e⟩ ∧
      (p, e) ∈ files ∧ ∀ q ∈ files.map Prod.snd, q ≤ e := by
  obtain ⟨⟨p, e⟩, hl⟩ : ∃ pe, files.getLast? = some pe := by
    cases files with
    | nil => exact absurd rfl hne
    | cons a t => exact ⟨_, List.getLast?_eq_getLast_of_ne_nil (by simp)⟩
  have hie : files.isEmpty = false := List.isEmpty_eq_false.mpr hne
  refine ⟨p, e, ?_, ?_, ?_⟩
  · simp [State.load, hie, hl]
  · obtain ⟨hnn, heq⟩ := List.mem_getLast?_eq_getLast (Option.mem_def.mpr hl)
    exact heq ▸ List.getLast_mem hnn
  · intro q hq
    apply sorted_le_getLast? _ hs q hq
    rw [List.getLast?_map, hl]
    rfl

/-- C1 witness: a concrete two-checkpoint listing resumed at the top. -/
theorem load_resume_true_latest_witness :
    ∃ (p : String) (e : Int),
      State.load (fun _ => "") [("ck0", 0), ("ck3", 3)] none (.bool true)
        = .ok ⟨some p, e⟩ ∧
      (p, e) ∈ [("ck0", 0), ("ck3", 3)] ∧
      ∀ q ∈ [("ck0", 0), ("ck3", 3)].map Prod.snd, q ≤ e :=
  load_resume_true_latest (fun _ => "") [("ck0", 0), ("ck3", 3)] none
    (by decide) (by decide)

/-! ### C8: option parsing, descent errors and value coercion -/

/-- C8 counterexample: descending through an intermediate key whose value
is not a mapping fails with `TypeError` (string subscripting with a string
key), not with the `KeyError` the claim asserts. -/
theorem argparse_nondict_counterexample :
    Config.argparse1 [("a", JValue.str "hello")] "a:b:c=1"
      = .error .typeError ∧
    ¬ (Config.argparse1 [("a", JValue.str "hello")] "a:b:c=1"
        = .error .keyError) := by
  refine ⟨rfl, ?_⟩
  intro h
  rw [show Config.argparse1 [("a", JValue.str "hello")] "a:b:c=1"
      = .error .typeError from rfl] at h
  simp at h

/-- C8 (amended): the option-applying operation descends through the
intermediate keys, failing with `KeyError` when a key is absent from a
mapping and with `TypeError` when an intermediate value is not a mapping;
on success it sets the final key to the value coerced in order — literal
`true`/`false` to boolean, else integer, else float, else the string
itself. -/
theorem argparse_descend_and_cast :
    (∀ (config : Obj) (last : String) (v : JValue),
        Config.descendSet config [] last v = .ok (setKey config last v)) ∧
    (∀ (config : Obj) (k : String) (ks : List String) (last : String)
        (v : JValue), lookupKey config k = none →
        Config.descendSet config (k :: ks) last v = .error .keyError) ∧
    (∀ (config : Obj) (k : String) (ks : List String) (last : String)
        (v w : JValue), lookupKey config k = some w → isDict w = false →
        Config.descendSet config (k :: ks) last v = .error .typeError) ∧
    (∀ (config : Obj) (k : String) (ks : List String) (last : String)
        (v : JValue) (sub : Obj), lookupKey config k = some (JValue.obj sub) →
        Config.descendSet config (k :: ks) last v
          = (Config.descendSet sub ks last v).map
              (fun s => setKey config k (JValue.obj s))) ∧
    Config.cast "true" = JValue.bool true ∧
    Config.cast "false" = JValue.bool false ∧
    (∀ (s : String) (n : Int), s ≠ "true" → s ≠ "false" →
        Config.pyInt s = some n → Config.cast s = JValue.int n) ∧
    (∀ s : String, s ≠ "true" → s ≠ "false" → Config.pyInt s = none →
        Config.pyFloatOk s = true → Config.cast s = JValue.float s) ∧
    (∀ s : String, s ≠ "true" → s ≠ "false" → Config.pyInt s = none →
        Config.pyFloatOk s = false → Config.cast s = JValue.str s) ∧
    Config.argparse1 [("a", JValue.obj [("b", JValue.int 1)])] "a:b=2.5"
      = .ok [("a", JValue.obj [("b", JValue.float "2.5")])] ∧
    Config.argparse1 [("a", JValue.obj [])] "c:b=1" = .error .keyError := by
  refine ⟨fun _ _ _ => rfl, ?_, ?_, ?_, rfl, rfl, ?_, ?_, ?_, rfl, rfl⟩
  · intro config k ks last v h
    simp [Config.descendSet, h]
  · intro config k ks last v w h hw
    cases w <;> simp [Config.descendSet, h] <;> simp [isDict] at hw
  · intro config k ks last v sub h
    simp [Config.descendSet, h]
  · intro s n h1 h2 h3
    simp [Config.cast, h1, h2, h3]
  · intro s h1 h2 h3 h4
    simp [Config.cast, h1, h2, h3, h4]
  · intro s h1 h2 h3 h4
    simp [Config.cast, h1, h2, h3, h4]

/-- C8 witness: the theorem's conditional parts applied at concrete
configurations and option values. -/
theorem argparse_descend_and_cast_witness :
    Config.descendSet [("a", JValue.obj [])] ["x"] "b" (JValue.int 1)
      = .error .keyError ∧
    Config.descendSet [("a", JValue.int 7)] ["a"] "b" (JValue.int 1)
      = .error .typeError ∧
    Config.cast "-3" = JValue.int (-3) ∧
    Config.cast "2.5" = JValue.float "2.5" ∧
    Config.cast "hi" = JValue.str "hi" :=
  ⟨argparse_descend_and_cast.2.1 _ "x" _ "b" _ rfl,
   argparse_descend_and_cast.2.2.1 _ "a" [] "b" _ _ rfl rfl,
   argparse_descend_and_cast.2.2.2.2.2.2.1 "-3" (-3) (by decide) (by decide) rfl,
   argparse_descend_and_cast.2.2.2.2.2.2.2.1 "2.5" (by decide) (by decide) rfl rfl,
   argparse_descend_and_cast.2.2.2.2.2.2.2.2.1 "hi" (by decide) (by decide) rfl rfl⟩

end Babyseg
